import Mathlib

/-!
Shallow embedding of `scales.py` from `mpg/pypiano-fingers`: notes, modes,
thumb-convenience maps, scale fingerings, spelling selection and the
fingering preference comparator, together with theorems settling the
specification's claims about them.

Machine integers are modelled by `Int`; Python `%` on a positive modulus and
`Int.emod` both yield a result in `[0, modulus)`, so `%` translates directly.
Python strings are modelled by `String`, with substring membership spelled
out on the underlying character lists.  Fallible operations (constructors
that may raise) return `Option`.
-/

/-- One of the 12 notes of the chromatic scale, represented by its rank
(0 = Do/C).  The Python constructor stores the rank unvalidated, so the
field is an unrestricted integer. -/
structure Note where
  rank : Int
deriving DecidableEq, Repr

/-- White keys on a piano keyboard (aka C major scale). -/
def Note.white_keys : List Int := [0, 2, 4, 5, 7, 9, 11]

/-- French note names used by the source. -/
def Note.note_names : List String := ["Do", "Ré", "Mi", "Fa", "Sol", "La", "Si"]

/-- Sharp symbol. -/
def Note.sharp_sym : String := "♯"

/-- Flat symbol. -/
def Note.flat_sym : String := "♭"

/-- Name substitutions (empty for the French system used by the source). -/
def Note.substitutions : List (String × String) := []

/-- Quick access to names of white keys: `dict(zip(white_keys, note_names))`. -/
def Note.white_names : List (Int × String) := Note.white_keys.zip Note.note_names

/-- `Note.__init__` stores the rank as given; it can never fail, which the
`Option` result records (`none` would model an exception). -/
def Note.init (rank : Int) : Option Note := some ⟨rank⟩

/-- `Note.each(stride)`: `Note(rank % 12) for rank in range(0, 12*stride, stride)`;
for a positive stride the values of that Python range are `k * stride`, `k < 12`. -/
def Note.each (stride : Nat) : List Note :=
  (List.range 12).map (fun k => ⟨((k * stride : Nat) : Int) % 12⟩)

/-- `Note.random()`: `Note(random.randrange(12))`, modelled by its draw. -/
def Note.random (draw : Fin 12) : Note := ⟨(draw.val : Int)⟩

/-- `is_black`: `self.rank not in self.white_keys`. -/
def Note.is_black (n : Note) : Bool := !(Note.white_keys.contains n.rank)

/-- Loop of `closest_white_keys`, carrying the previous white key. -/
def closestWhiteAux (rank prv : Int) : List Int → List Int
  | [] => []
  | cur :: rest =>
    if cur = rank then [cur]
    else if cur > rank then [prv, cur]
    else closestWhiteAux rank cur rest

/-- `closest_white_keys`: the white keys (unaltered notes) closest from
`self`; the Python `None` fall-through, unreachable for ranks in `[0, 12)`,
is modelled as `[]`. -/
def Note.closest_white_keys (n : Note) : List Int :=
  closestWhiteAux n.rank (-1) Note.white_keys

/-- `whites_from`: white keys rotated to start at the given one. -/
def Note.whites_from (from_note : Int) : List Int :=
  let i := Note.white_keys.findIdx (· == from_note)
  Note.white_keys.drop i ++ Note.white_keys.take i

/-- String repetition, as in Python `sym * k`. -/
def strRepeat (s : String) (k : Nat) : String := String.join (List.replicate k s)

/-- `name_with_base_white`: our name obtained by adding alterations to the
given base. -/
def Note.name_with_base_white (n : Note) (base_white : Int) : String :=
  let base_name := (Note.white_names.lookup base_white).getD ""
  let distance0 := (n.rank - base_white) % 12
  let distance := if distance0 ≥ 6 then distance0 - 12 else distance0
  let alter :=
    if distance > 0 then strRepeat Note.sharp_sym distance.toNat
    else if distance < 0 then strRepeat Note.flat_sym (-distance).toNat
    else ""
  let full_name := base_name ++ alter
  (Note.substitutions.lookup full_name).getD full_name

/-- `Note.__str__`: name with the first closest white key as base. -/
def Note.str (n : Note) : String :=
  n.name_with_base_white (n.closest_white_keys.headD 0)

/-- `Note.__add__`: the note `half_steps` above, rank `(rank + half_steps) % 12`. -/
def Note.add (n : Note) (half_steps : Int) : Note := ⟨(n.rank + half_steps) % 12⟩

/-- One of the common modes: major or minor harmonic. -/
structure Mode where
  intervals : List Int
  name : String
  index : Int
deriving DecidableEq, Repr

/-- Modes as half-step interval sequences: major, then minor harmonic. -/
def Mode.intervals_list : List (List Int) :=
  [[2, 2, 1, 2, 2, 2, 1], [2, 1, 2, 2, 1, 3, 1]]

/-- Mode names (French, as in the source). -/
def Mode.names : List String := ["Majeur", "Mineur"]

/-- Python sequence indexing: a negative index counts from the end, any other
out-of-range index is an `IndexError` (`none`). -/
def pyGet (l : List α) (i : Int) : Option α :=
  if 0 ≤ (if i < 0 then i + l.length else i)
  then l.get? (if i < 0 then i + l.length else i).toNat
  else none

/-- `Mode.__init__` with its tuple lookups under Python indexing: it raises
(`none`) exactly when `intervals_list[index]` / `names[index]` do. -/
def Mode.init (index : Int) : Option Mode :=
  (pyGet Mode.intervals_list index).bind fun intervals =>
    (pyGet Mode.names index).map fun name => ⟨intervals, name, index⟩

/-- `Mode(i)` for an in-range natural index, as constructed by `Mode.each`. -/
def Mode.make (i : Nat) : Mode :=
  ⟨Mode.intervals_list.getD i [], Mode.names.getD i "", (i : Int)⟩

/-- `Mode.each()`: the two modes, major then minor harmonic. -/
def Mode.each : List Mode := (List.range 2).map Mode.make

/-- `Mode.random()`: `Mode(random.randrange(2))`, modelled by its draw. -/
def Mode.random (draw : Fin 2) : Mode := Mode.make draw.val

/-- Map of where the thumb can, should and should not go in a scale.
The lambda `symmetry` of the source (identity for the right hand, reversal
for the left) is carried as the `right_hand` flag; `ScaleThumbMap.symmetry`
applies it. -/
structure ScaleThumbMap where
  right_hand : Bool
  notes : List Note
  scores : List (Bool × Int)
deriving DecidableEq, Repr

/-- Whether the thumb goes on each degree in C Major. -/
def ScaleThumbMap.c_major_thumb : List Bool :=
  [true, false, false, true, false, false, false, true]

/-- The source's `symmetry` member: identity for the right hand, reversal
for the left hand. -/
def symmetryFn (right_hand : Bool) (l : List α) : List α :=
  if right_hand then l else l.reverse

/-- Thumb convenience score for the given pair of notes:
-2 forbidden (black key); -1 inconvenient (passing on augmented second);
0 neutral; 1 convenient (passing after black key). -/
def ScaleThumbMap.score (note prev : Note) : Int :=
  if note.is_black then -2
  else
    let dist0 : Int := ((note.rank - prev.rank).natAbs : Int)
    let dist := if dist0 > 6 then 12 - dist0 else dist0
    if dist > 2 then -1
    else if prev.is_black then 1
    else 0

/-- `ScaleThumbMap.__init__`: apply the hand symmetry to the 8 notes, score
each transition `notes[i-1] → notes[i]` (index `-1` wrapping to 7), and pack
each score with the canonical C-major thumb flag. -/
def ScaleThumbMap.init (scale_8_notes : List Note) (right_hand : Bool) :
    ScaleThumbMap :=
  let notes := symmetryFn right_hand scale_8_notes
  let raw := (List.range 8).map
    (fun i => ScaleThumbMap.score (notes.getD i ⟨0⟩) (notes.getD ((i + 7) % 8) ⟨0⟩))
  ⟨right_hand, notes, ScaleThumbMap.c_major_thumb.zip raw⟩

/-- Apply this map's hand symmetry to a list. -/
def ScaleThumbMap.symmetry (m : ScaleThumbMap) (l : List α) : List α :=
  symmetryFn m.right_hand l

/-- A fingering for a 7-notes scale. -/
structure ScaleFingering where
  map : ScaleThumbMap
  fingers : List Nat
  thumb_scores : List (Bool × Int)
deriving DecidableEq, Repr

/-- The basic (C major) fingering pattern to be rotated. -/
def ScaleFingering.base : List Nat := [1, 2, 3, 1, 2, 3, 4]

/-- `ScaleFingering.__init__`: rotate `base` by `i`, extend to 8 notes
(5 if the 7th finger is 4, else repeat the first finger), and extract the
thumb scores at the positions where the finger is 1. -/
def ScaleFingering.init (thumb_map : ScaleThumbMap) (i : Nat) : ScaleFingering :=
  let fingers7 := ScaleFingering.base.drop i ++ ScaleFingering.base.take i
  let fingers := fingers7 ++ [if fingers7.getLastD 0 == 4 then 5 else fingers7.headD 0]
  let finger_scores := fingers.zip thumb_map.scores
  ⟨thumb_map, fingers, (finger_scores.filter (fun fs => fs.1 == 1)).map (·.2)⟩

/-- `ScaleFingering.__str__`: 8 digits, hand symmetry applied for display. -/
def ScaleFingering.str (f : ScaleFingering) : String :=
  String.join (f.map.symmetry (f.fingers.map (fun n => toString n)))

/-- `ScaleFingering.each`: the 7 rotations of the base fingering. -/
def ScaleFingering.each (thumb_map : ScaleThumbMap) : List ScaleFingering :=
  (List.range 7).map (fun i => ScaleFingering.init thumb_map i)

/-- `is_acceptable`: False if that fingering puts the thumb on a black key. -/
def ScaleFingering.is_acceptable (f : ScaleFingering) : Bool :=
  !(f.thumb_scores.any (fun s => s.2 == -2))

/-- `ends_with_pinky`: True if this is the familiar C Major fingering. -/
def ScaleFingering.ends_with_pinky (f : ScaleFingering) : Bool :=
  f.thumb_scores.all (fun s => s.1)

/-- `starts_with_thumb`: True if the thumb is on the tonic. -/
def ScaleFingering.starts_with_thumb (f : ScaleFingering) : Bool :=
  f.fingers.headD 0 == 1

/-- `has_no_long_passing`: False on thumb-passings on an interval larger
than a second. -/
def ScaleFingering.has_no_long_passing (f : ScaleFingering) : Bool :=
  !(f.thumb_scores.any (fun s => s.2 == -1))

/-- `nb_black_passings`: number of thumb passings right after a black key. -/
def ScaleFingering.nb_black_passings (f : ScaleFingering) : Int :=
  (((f.thumb_scores.filter (fun s => s.2 == 1)).length : Nat) : Int)

/-- Python's `(s > o) - (s < o)` on integers (booleans compare as 0/1). -/
def pyCmp (s o : Int) : Int :=
  (if s > o then 1 else 0) - (if s < o then 1 else 0)

/-- Booleans as Python integers, for criteria compared with `>` / `<`. -/
def b2i (b : Bool) : Int := if b then 1 else 0

/-- `compare`: walk the criteria `ends_with_pinky`, `starts_with_thumb`,
`has_no_long_passing`, `nb_black_passings` in order and return the first
non-zero `(s > o) - (s < o)` with the criterion name; all four desirability
signs are +1 in the source, so the multiplication by the sign is omitted.
Ties on all four criteria give `(0, "")`. -/
def ScaleFingering.compare (self other : ScaleFingering) : Int × String :=
  if pyCmp (b2i self.ends_with_pinky) (b2i other.ends_with_pinky) ≠ 0 then
    (pyCmp (b2i self.ends_with_pinky) (b2i other.ends_with_pinky), "ends_with_pinky")
  else if pyCmp (b2i self.starts_with_thumb) (b2i other.starts_with_thumb) ≠ 0 then
    (pyCmp (b2i self.starts_with_thumb) (b2i other.starts_with_thumb), "starts_with_thumb")
  else if pyCmp (b2i self.has_no_long_passing) (b2i other.has_no_long_passing) ≠ 0 then
    (pyCmp (b2i self.has_no_long_passing) (b2i other.has_no_long_passing), "has_no_long_passing")
  else if pyCmp self.nb_black_passings other.nb_black_passings ≠ 0 then
    (pyCmp self.nb_black_passings other.nb_black_passings, "nb_black_passings")
  else (0, "")

/-- `ScaleFingering.__lt__`: "less than" means "preferred", so sorting puts
the preferred fingerings first. -/
def ScaleFingering.lt (a b : ScaleFingering) : Bool :=
  decide ((a.compare b).1 > 0)

/-- Insert into a sorted list, after any element it does not strictly
precede (the placement a stable sort gives a later element). -/
def insertFingering (x : ScaleFingering) : List ScaleFingering → List ScaleFingering
  | [] => [x]
  | y :: ys => if ScaleFingering.lt x y then x :: y :: ys else y :: insertFingering x ys

/-- Python `sorted` under `__lt__`: a stable sort; since `compare` is a
lexicographic comparison of criterion values it is a strict weak order, so
any stable sort — here, left-to-right insertion — yields `sorted`'s output. -/
def sortFingerings (fs : List ScaleFingering) : List ScaleFingering :=
  fs.foldl (fun acc x => insertFingering x acc) []

/-- A 7-notes scale defined by tonic and mode, with its 8 notes (tonic on
both ends) and the per-hand thumb convenience maps from `Scale.__init__`. -/
structure Scale where
  tonic : Note
  mode : Mode
  notes : List Note
  mapL : ScaleThumbMap
  mapR : ScaleThumbMap
deriving DecidableEq, Repr

/-- The `Scale.__init__` loop `notes.append(notes[-1] + i)`: cumulative
transposition of the tonic through the mode's intervals. -/
def buildNotes (start : Note) : List Int → List Note
  | [] => [start]
  | i :: rest => start :: buildNotes (start.add i) rest

/-- `Scale.__init__`: the 8 notes and both hands' thumb convenience maps. -/
def Scale.init (tonic : Note) (mode : Mode) : Scale :=
  let notes := buildNotes tonic mode.intervals
  ⟨tonic, mode, notes, ScaleThumbMap.init notes false, ScaleThumbMap.init notes true⟩

/-- The source's `maps` dict keyed by the hand. -/
def Scale.maps (s : Scale) (right_hand : Bool) : ScaleThumbMap :=
  if right_hand then s.mapR else s.mapL

/-- `Scale.each`: all 24 scales, by circle of fifths (minor tonic 3 half
steps below the paired major tonic) or chromatically. -/
def Scale.each (circle_of_fifths : Bool) : List Scale :=
  if !circle_of_fifths then
    (Note.each 1).flatMap (fun note => Mode.each.map (fun mode => Scale.init note mode))
  else
    (Note.each 7).flatMap (fun note =>
      Mode.each.enum.map (fun im =>
        Scale.init (if im.1 ≠ 0 then note.add (-3) else note) im.2))

/-- Substring membership on character lists (Python `sub in s`). -/
def listInfix (sub : List Char) : List Char → Bool
  | [] => sub.isEmpty
  | c :: rest => decide (List.take sub.length (c :: rest) = sub) || listInfix sub rest

/-- Python's `sub in s` on strings. -/
def strContains (sub s : String) : Bool := listInfix sub.data s.data

/-- Inner loop of `spellings`: the names of degrees 0..6 spelled over the
white bases starting from `tonic_base`. -/
def spellWith (notes : List Note) (tonic_base : Int) : List String :=
  ((Note.whites_from tonic_base).enum).map
    (fun ic => (notes.getD ic.1 ⟨0⟩).name_with_base_white ic.2)

/-- Number of altered names in a candidate (`nb_alt` of the source). -/
def nbAltNames (names : List String) : Nat :=
  (names.filter
    (fun nm => strContains Note.sharp_sym nm || strContains Note.flat_sym nm)).length

/-- Whether a candidate holds a doubly-altered name (`bad` of the source). -/
def isBadNames (names : List String) : Bool :=
  names.any (fun nm =>
    strContains (Note.sharp_sym ++ Note.sharp_sym) nm ||
    strContains (Note.flat_sym ++ Note.flat_sym) nm)

/-- `Scale.spellings`: fold over the tonic's closest white keys with the
state `(scale_candidates, nb_alt_prev)` exactly as the source's loop:
a bad candidate is skipped; a strictly better one clears the accumulated
list; the candidate is then appended and `nb_alt_prev` overwritten. -/
def Scale.spellings (s : Scale) : List (List String) :=
  (s.tonic.closest_white_keys.foldl
    (fun st tonic_base =>
      let note_names := spellWith s.notes tonic_base
      if !(isBadNames note_names) then
        ((if nbAltNames note_names < st.2 then [] else st.1) ++ [note_names],
         nbAltNames note_names)
      else st)
    (([] : List (List String)), (7 : Nat))).1

/-- `Scale.__str__`: tonic name of the first spelling plus the mode name. -/
def Scale.str (s : Scale) : String :=
  ((s.spellings.headD []).headD "") ++ " " ++ s.mode.name

/-- `Scale.fingerings`: the acceptable rotations, most preferred first. -/
def Scale.fingerings (s : Scale) (right_hand : Bool) : List ScaleFingering :=
  sortFingerings
    ((ScaleFingering.each (s.maps right_hand)).filter ScaleFingering.is_acceptable)

/-- `Scale.thumb_scores`: the hand's scores in display order. -/
def Scale.thumb_scores (s : Scale) (right_hand : Bool) : List (Bool × Int) :=
  (s.maps right_hand).symmetry (s.maps right_hand).scores

/-! ## Verification layer -/

/-- A note whose rank lies in `[0, 12)`. -/
def noteInRange (nt : Note) : Bool :=
  decide (0 ≤ nt.rank) && decide (nt.rank < 12)

/-- Junk fingering used as an out-of-bounds default in index checks. -/
def dfltFingering : ScaleFingering := ⟨⟨true, [], []⟩, [], []⟩

/-- The list is sorted most-preferred-first: no later element is preferred
over an earlier one (`fingerings[j].compare(fingerings[i])[0] <= 0` for `i < j`). -/
def sortedMostPreferredFirst (fs : List ScaleFingering) : Bool :=
  (List.range fs.length).all (fun j => (List.range j).all (fun i =>
    decide (((fs.getD j dfltFingering).compare (fs.getD i dfltFingering)).1 ≤ 0)))

/-- Spec formula for the thumb score, stated from the claim's words
(refinement reference): -2 on a black key, else -1 when the circular
distance `min(|d|, 12-|d|)` exceeds 2, else +1 after a black key, else 0. -/
def scoreSpec (note prev : Note) : Int :=
  if note.is_black then -2
  else if min ((note.rank - prev.rank).natAbs : Int)
              (12 - ((note.rank - prev.rank).natAbs : Int)) > 2 then -1
  else if prev.is_black then 1
  else 0

/-- All the properties claimed of `Scale.spellings` bundled as one check:
non-empty with one or two 7-name candidates, no doubly-altered name, each
candidate's alteration count minimal among the non-bad tried bases, a tie
returning both candidates in base order, and a white tonic giving exactly
one candidate. -/
def spellingsOK (s : Scale) : Bool :=
  let cands := s.spellings
  let good := (s.tonic.closest_white_keys).filter
    (fun b => !(isBadNames (spellWith s.notes b)))
  let goodAlts := good.map (fun b => nbAltNames (spellWith s.notes b))
  !cands.isEmpty &&
  (cands.length == 1 || cands.length == 2) &&
  cands.all (fun c => c.length == 7 &&
    c.all (fun nm => !(strContains (Note.sharp_sym ++ Note.sharp_sym) nm) &&
                     !(strContains (Note.flat_sym ++ Note.flat_sym) nm))) &&
  cands.all (fun c => goodAlts.all (fun a => decide (nbAltNames c ≤ a))) &&
  (match good with
   | [b0, b1] =>
     if nbAltNames (spellWith s.notes b0) == nbAltNames (spellWith s.notes b1)
     then cands == [spellWith s.notes b0, spellWith s.notes b1]
     else true
   | _ => true) &&
  (if !s.tonic.is_black then cands.length == 1 else true)

/-- `pyCmp` is antisymmetric. -/
theorem pyCmp_antisym (s o : Int) : pyCmp o s = -pyCmp s o := by
  unfold pyCmp
  split_ifs <;> omega

/-- `compare` flips its sign when its arguments are swapped, and a tie
reports an empty reason on both sides. -/
theorem compareAntisymAux (A B : ScaleFingering) :
    (A.compare B).1 = -(B.compare A).1 ∧
    ((A.compare B).1 = 0 → (A.compare B).2 = "" ∧ (B.compare A).2 = "") := by
  unfold ScaleFingering.compare
  rw [pyCmp_antisym (b2i A.ends_with_pinky) (b2i B.ends_with_pinky),
      pyCmp_antisym (b2i A.starts_with_thumb) (b2i B.starts_with_thumb),
      pyCmp_antisym (b2i A.has_no_long_passing) (b2i B.has_no_long_passing),
      pyCmp_antisym A.nb_black_passings B.nb_black_passings]
  simp only [ne_eq, neg_eq_zero]
  split_ifs <;> dsimp only <;> refine ⟨by omega, fun hz => ?_⟩ <;>
    first
      | exact ⟨rfl, rfl⟩
      | omega

/-! ## Claims -/

/-- C1: for every tonic rank in `[0, 12)`, both modes and each hand,
`Scale.fingerings` is non-empty, every returned fingering is acceptable, and
the sequence is sorted most-preferred-first: `fingerings[j].compare
(fingerings[i])[0] <= 0` whenever `i < j`. -/
theorem fingerings_nonempty_acceptable_sorted :
    ∀ t : Fin 12, ∀ m : Fin 2, ∀ rh : Bool,
      ((Scale.init ⟨(t.val : Int)⟩ (Mode.make m.val)).fingerings rh).isEmpty = false ∧
      ((Scale.init ⟨(t.val : Int)⟩ (Mode.make m.val)).fingerings rh).all
        ScaleFingering.is_acceptable = true ∧
      sortedMostPreferredFirst
        ((Scale.init ⟨(t.val : Int)⟩ (Mode.make m.val)).fingerings rh) = true := by
  decide

/-- C2 counterexample: for C Major the code's most-preferred fingerings are
not the claimed strings (`12312341` right, `14321321` left). -/
theorem c_major_best_fingerings_differ :
    ¬(((((Scale.init ⟨0⟩ (Mode.make 0)).fingerings true).map
          ScaleFingering.str).headD "" = "12312341") ∧
      ((((Scale.init ⟨0⟩ (Mode.make 0)).fingerings false).map
          ScaleFingering.str).headD "" = "14321321")) := by
  decide

/-- C2 amended: for C Major the most-preferred right-hand fingering string is
`12312345` and the most-preferred left-hand fingering string is `54321321`. -/
theorem c_major_best_fingerings :
    ((((Scale.init ⟨0⟩ (Mode.make 0)).fingerings true).map
        ScaleFingering.str).headD "" = "12312345") ∧
    ((((Scale.init ⟨0⟩ (Mode.make 0)).fingerings false).map
        ScaleFingering.str).headD "" = "54321321") := by
  decide

/-- C3: for any two fingerings built over the same thumb-convenience map,
`A.compare(B)[0] == -B.compare(A)[0]`, and when the comparison is 0 both
reason strings are empty. -/
theorem compare_antisym_consistent (tm : ScaleThumbMap) (i j : Nat) :
    ((ScaleFingering.init tm i).compare (ScaleFingering.init tm j)).1 =
      -((ScaleFingering.init tm j).compare (ScaleFingering.init tm i)).1 ∧
    (((ScaleFingering.init tm i).compare (ScaleFingering.init tm j)).1 = 0 →
      ((ScaleFingering.init tm i).compare (ScaleFingering.init tm j)).2 = "" ∧
      ((ScaleFingering.init tm j).compare (ScaleFingering.init tm i)).2 = "") :=
  compareAntisymAux _ _

/-- C3 witness: the tie case realized on the C Major right-hand map with the
same rotation on both sides. -/
theorem compare_antisym_consistent_witness :
    ((ScaleFingering.init ((Scale.init ⟨0⟩ (Mode.make 0)).maps true) 0).compare
        (ScaleFingering.init ((Scale.init ⟨0⟩ (Mode.make 0)).maps true) 0)).2 = "" ∧
    ((ScaleFingering.init ((Scale.init ⟨0⟩ (Mode.make 0)).maps true) 0).compare
        (ScaleFingering.init ((Scale.init ⟨0⟩ (Mode.make 0)).maps true) 0)).2 = "" :=
  (compare_antisym_consistent ((Scale.init ⟨0⟩ (Mode.make 0)).maps true) 0 0).2
    (by decide)

/-- C4: for notes with ranks in `[0, 12)`, `ScaleThumbMap.score` computes
exactly the spec's case split (black key -2, circular distance above 2 gives
-1, previous note black +1, else 0). -/
theorem score_matches_spec :
    ∀ a b : Fin 12,
      ScaleThumbMap.score ⟨(a.val : Int)⟩ ⟨(b.val : Int)⟩ =
        scoreSpec ⟨(a.val : Int)⟩ ⟨(b.val : Int)⟩ := by
  decide

/-- C5 counterexample: for the A harmonic-minor scale, right hand, none of
the 7 raw rotations has `has_no_long_passing() == False` (the augmented
second lands on the black G♯, scored -2, not -1). -/
theorem a_minor_right_hand_no_inconvenient_passing :
    ((ScaleFingering.each ((Scale.init ⟨9⟩ (Mode.make 1)).maps true)).any
      (fun f => f.has_no_long_passing == false)) = false := by
  decide

/-- C5 amended: for every harmonic-minor scale and each hand, at least one of
the 7 raw rotations has `has_no_long_passing() == False` or
`is_acceptable() == False` (the rotation whose thumb enters the augmented
second scores -1 there when that note is white and -2 when it is black). -/
theorem harmonic_minor_has_flawed_rotation :
    ∀ t : Fin 12, ∀ rh : Bool,
      ((ScaleFingering.each ((Scale.init ⟨(t.val : Int)⟩ (Mode.make 1)).maps rh)).any
        (fun f => !f.has_no_long_passing || !f.is_acceptable)) = true := by
  decide

/-- C6: for every tonic and both modes, `Scale.spellings` returns a
non-empty list of one or two 7-name candidates, none doubly altered, each
with the minimal alteration count among the non-bad tried bases, a tie
returning both candidates lower-base first, and a white tonic yielding
exactly one candidate. -/
theorem spellings_candidates_ok :
    ∀ t : Fin 12, ∀ m : Fin 2,
      spellingsOK (Scale.init ⟨(t.val : Int)⟩ (Mode.make m.val)) = true := by
  decide

/-- C7: the first four scales of `Scale.each(True)` (circle of fifths) are
C Major, A harmonic Minor, G Major and E Minor by (tonic rank, mode index). -/
theorem circle_of_fifths_first_four :
    ((Scale.each true).take 4).map (fun s => (s.tonic.rank, s.mode.index)) =
      [(0, 0), (9, 1), (7, 0), (4, 1)] := by
  decide

/-- C8 counterexample: `Note(13)` does not raise: the constructor stores the
out-of-range rank unvalidated. -/
theorem note_init_out_of_range_succeeds : ¬(Note.init 13 = none) := by
  decide

/-- C8 amended: `Note.__init__` never fails for any integer rank, and
`Mode.__init__` fails exactly when the index is outside `[-2, 2)` — Python
tuple indexing also accepts the negative indices -1 and -2. -/
theorem init_range_check_behavior :
    (∀ n : Int, Note.init n = some ⟨n⟩) ∧
    (∀ m : Int, (Mode.init m).isSome = decide (-2 ≤ m ∧ m < 2)) := by
  constructor
  · intro n; rfl
  · intro m
    by_cases hlo : -2 ≤ m
    · by_cases hhi : m < 2
      · have hc : m = -2 ∨ m = -1 ∨ m = 0 ∨ m = 1 := by omega
        rcases hc with h | h | h | h <;> subst h <;> decide
      · have h1 : pyGet Mode.intervals_list m = none := by
          unfold pyGet
          rw [if_neg (show ¬m < 0 by omega), if_pos (show (0:Int) ≤ m by omega)]
          exact List.get?_eq_none.mpr (by simp [Mode.intervals_list]; omega)
        rw [Mode.init, h1]
        simp only [Option.none_bind, Option.isSome_none]
        rw [eq_comm, decide_eq_false_iff_not]
        omega
    · have h1 : pyGet Mode.intervals_list m = none := by
        unfold pyGet
        rw [if_pos (show m < 0 by omega)]
        rw [if_neg (show ¬(0:Int) ≤ m + Mode.intervals_list.length by
          simp [Mode.intervals_list]; omega)]
      rw [Mode.init, h1]
      simp only [Option.none_bind, Option.isSome_none]
      rw [eq_comm, decide_eq_false_iff_not]
      omega

/-- C9: every raw rotation has two thumb placements except offset 3, whose
appended 8th finger is the thumb, giving three. -/
theorem thumb_scores_length_two_or_three :
    ∀ t : Fin 12, ∀ m : Fin 2, ∀ rh : Bool, ∀ i : Fin 7,
      (ScaleFingering.init ((Scale.init ⟨(t.val : Int)⟩ (Mode.make m.val)).maps rh)
        i.val).thumb_scores.length = if i.val = 3 then 3 else 2 := by
  decide

/-- C10: the Note constructor stores its rank unreduced, while every note
from `Note.each`, `Note.random` and `Note.__add__` has rank in `[0, 12)`,
and so do all 8 notes of a scale built from an in-range tonic. -/
theorem ranks_in_range_invariant :
    (∀ n : Int, Note.init n = some ⟨n⟩) ∧
    (∀ stride : Nat, (Note.each stride).all noteInRange = true) ∧
    (∀ d : Fin 12, noteInRange (Note.random d) = true) ∧
    (∀ nt : Note, ∀ h : Int, noteInRange (nt.add h) = true) ∧
    (∀ t : Fin 12, ∀ m : Fin 2,
      ((Scale.init ⟨(t.val : Int)⟩ (Mode.make m.val)).notes.all noteInRange) = true) := by
  refine ⟨fun n => rfl, ?_, by decide, ?_, by decide⟩
  · intro stride
    simp only [Note.each, List.all_eq_true, List.mem_map, List.mem_range]
    rintro nt ⟨k, hk, rfl⟩
    simp only [noteInRange, Bool.and_eq_true, decide_eq_true_eq]
    omega
  · intro nt h
    simp only [noteInRange, Note.add, Bool.and_eq_true, decide_eq_true_eq]
    omega
